import Mathlib

/-!
# Verification of the hanabi-live game lifecycle controller

Shallow embedding of `src/game.go` (`Game`, `MaxScore`, `GetName`, `CheckTimer`,
`CheckEnd`) and `src/gameEnd.go` (`End`, `announceGameResult`).

Conventions of the embedding:
* Go `int` is `Int`; `time.Time` instants and `time.Duration` values are `Int`
  (nanosecond counts; no claim depends on their unit).
* Go maps (`map[int]*Session`) are association lists `List (Int × Session)`
  with Go's overwrite-on-insert semantics.
* The global `games` registry (`map[int]*Game`) is modelled by its key set
  (`List Int`): every claim about it only asks whether an identifier resolves.
* Side effects (websocket emissions, log lines, database calls, chat) are
  recorded in order in an explicit `Effect` list; fallible database calls and
  `json.Marshal` are injected as `Except`-returning functions in an `Env`,
  mirroring the external collaborators.
-/

namespace HanabiLive

/-- `Card` as used by this core: suit, rank, draw order and the discarded flag
(fields read by `CheckEnd` and the reveal loop of `End`). -/
structure Card where
  Suit : Int
  Rank : Int
  Order : Int
  Discarded : Bool
deriving DecidableEq, Repr

/-- A live connection. Only its identity is read by this core
(`p.Session.UserID()`); attribute writes (`Set`) are recorded as effects. -/
structure Session where
  UserID : Int
deriving DecidableEq, Repr

/-- Projection of the `Player` struct to the fields this core reads:
identity, name, hand, remaining time, notes, presence flag and session. -/
structure Player where
  ID : Int
  Name : String
  Hand : List Card
  Time : Int
  Notes : List String
  Present : Bool
  Session : Session
deriving DecidableEq, Repr

/-- `Options` from `src/game.go`. `TimeBase` is `float64` in Go; it is
modelled as `Int` (no claim depends on fractional time bases, and `End`
truncates it with `int(...)` anyway). -/
structure Options where
  Variant : Int
  Timed : Bool
  TimeBase : Int
  TimePerTurn : Int
  ReorderCards : Bool
deriving DecidableEq, Repr

/-- `DiscardSignal` from `src/game.go`; threaded through unchanged. -/
structure DiscardSignal where
  Outstanding : Bool
  TurnExpiration : Int
deriving DecidableEq, Repr

/-- The tagged-variant `Action` log record, reconstructed from its uses in
`src/gameEnd.go` and `src/game.go` (fields `Type`, `Num`, `Who`, `Text`,
`Score`, `Loss`); unset fields keep Go's zero values. -/
structure Action where
  «Type» : String := ""
  Num : Int := 0
  Who : Int := 0
  Text : String := ""
  Score : Int := 0
  Loss : Bool := false
deriving DecidableEq, Repr

instance : Inhabited Action := ⟨{}⟩

/-- The `Game` aggregate from `src/game.go`. -/
structure Game where
  ID : Int
  Name : String
  Owner : Int
  Options : Options
  Players : List Player
  Spectators : List (Int × Session)
  DisconSpectators : List (Int × Bool)
  Running : Bool
  SharedReplay : Bool
  DatetimeCreated : Int
  DatetimeStarted : Int
  DatetimeFinished : Int
  EndCondition : Int
  Seed : String
  Deck : List Card
  DeckIndex : Int
  Stacks : List Int
  Turn : Int
  ActivePlayer : Int
  Clues : Int
  Score : Int
  Progress : Int
  Strikes : Int
  Actions : List Action
  DiscardSignal : Option DiscardSignal
  Sound : String
  TurnBeginTime : Int
  EndTurn : Int
  BlindPlays : Int
deriving DecidableEq, Repr

/-- `func (g *Game) GetName() string`. -/
def GetName (g : Game) : String :=
  "Game #" ++ toString g.ID ++ " (" ++ g.Name ++ ") - Turn " ++ toString g.Turn ++ " - "

/-- `func (g *Game) MaxScore() int { return len(g.Stacks) * 5 }`. -/
def MaxScore (g : Game) : Int :=
  (g.Stacks.length : Int) * 5

/-- The playable-card scan at the end of `CheckEnd`: for each stack (suit
index `i`, starting from `b`), search the deck for an undiscarded card of that
suit whose rank is the stack height plus one. Returns `true` as soon as one is
found (the Go code then does `return false` from `CheckEnd`). -/
def playableSearch (deck : List Card) : List Int → Int → Bool
  | [], _ => false
  | stackLen :: rest, i =>
      deck.any (fun c => c.Suit == i && c.Rank == stackLen + 1 && !c.Discarded) ||
        playableSearch deck rest (i + 1)

/-- `func (g *Game) CheckEnd() bool` from `src/game.go`, returning the mutated
game together with the boolean result. -/
def CheckEnd (g : Game) : Game × Bool :=
  -- Check for 3 strikes
  if g.Strikes = 3 then
    ({ g with EndCondition := 2 }, true)
  -- Check for the final go-around
  else if g.Turn = g.EndTurn then
    ({ g with EndCondition := 1 }, true)
  -- Check to see if the maximum score has been reached
  else if g.Score = MaxScore g then
    ({ g with EndCondition := 1 }, true)
  -- Check to see if there are any cards remaining that can be played
  else if playableSearch g.Deck g.Stacks 0 then
    (g, false)
  else
    ({ g with EndCondition := 1 }, true)

/-- `CommandData` as built by `CheckTimer` and `announceGameResult`. -/
structure CommandData where
  «Type» : Int := 0
  Server : Bool := false
  Msg : String := ""
  Room : String := ""
deriving DecidableEq, Repr

/-- Result of one `CheckTimer` wake: the (possibly unchanged) game and player,
the `commandAction` submissions made, and the log lines written. -/
structure CheckTimerResult where
  game : Game
  player : Player
  commandActions : List (Session × CommandData)
  logs : List String
deriving DecidableEq, Repr

/-- The post-wake body of `func (g *Game) CheckTimer(turn int, p *Player)`:
everything after the `time.Sleep` and the lock acquisition (the sleep and the
lock are the concurrency scaffolding; the claims are about this sequential
body). -/
def CheckTimer (g : Game) (turn : Int) (p : Player) : CheckTimerResult :=
  -- Check to see if the game ended already
  if g.EndCondition > 0 then
    ⟨g, p, [], []⟩
  -- Check to see if we have made a move in the meanwhile
  else if turn ≠ g.Turn then
    ⟨g, p, [], []⟩
  else
    ⟨g, { p with Time := 0 },
      [(p.Session, { «Type» := 4 })],
      [GetName g ++ "Time ran out for \"" ++ p.Name ++ "\"."]⟩

/-- `models.GameRow` as filled in by `End`. -/
structure GameRow where
  Name : String
  Owner : Int
  Variant : Int
  TimeBase : Int
  TimePerTurn : Int
  Seed : String
  Score : Int
  EndCondition : Int
  DatetimeCreated : Int
  DatetimeStarted : Int
deriving DecidableEq, Repr

/-- `models.GameHistory` as filled in by `End`. -/
structure GameHistory where
  ID : Int
  NumPlayers : Int
  NumSimilar : Int
  Score : Int
  DatetimeFinished : Int
  Variant : Int
  OtherPlayerNames : String
deriving DecidableEq, Repr

/-- `models.PlayerNote` as filled in by `End`. -/
structure PlayerNote where
  ID : Int
  Name : String
  Notes : List String
deriving DecidableEq, Repr

/-- The synchronous persistence collaborator: each call either succeeds or
returns a typed failure (`models.Games.Insert`, `models.GameParticipants.Insert`,
`models.GameActions.Insert`, `models.Games.GetNumSimilar`). -/
structure DB where
  gamesInsert : GameRow → Except String Int
  gameParticipantsInsert : Int → Int → List String → Except String Unit
  gameActionsInsert : Int → String → Except String Unit
  gamesGetNumSimilar : String → Except String Int

/-- External collaborators of `End` that are injected rather than embedded:
the database, `json.Marshal`, the global `variants` name table,
`durationToString`, and the current wall-clock instant (`time.Now()`). -/
structure Env where
  db : DB
  marshal : Action → Except String String
  variants : List String
  durationToString : Int → String
  now : Int

/-- One observable side effect of `End`, in program order: websocket
broadcasts, log lines, database calls, session-attribute writes and the lobby
chat announcement. -/
inductive Effect where
  | notifyAction (a : Action)
  | notifyTime
  | reveal (s : Session) (rank suit order : Int)
  | tableGone
  | dbInsertGame (row : GameRow)
  | dbInsertParticipant (pid dbid : Int) (notes : List String)
  | dbInsertAction (dbid : Int) (a : String)
  | dbGetNumSimilar (seed : String)
  | notifyGameHistory (s : Session) (h : List GameHistory)
  | chat (d : CommandData)
  | logInfo (m : String)
  | logError (m : String)
  | sessionSet (s : Session) (key value : String)
  | notifyUser (s : Session)
  | notifyReplayLeader (s : Session)
  | notifyAllNotes (s : Session) (notes : List PlayerNote)
  | tablePublished
  | playerChange
  | spectatorsChange
deriving DecidableEq, Repr

/-- Result of `End`: the mutated game, the key set of the global `games`
registry, and the ordered side effects. -/
structure EndResult where
  game : Game
  games : List Int
  effects : List Effect
deriving DecidableEq, Repr

/-- Key lookup in the modelled `games` registry / spectator map. -/
def containsKey (m : List (Int × Session)) (k : Int) : Bool :=
  m.any (fun kv => kv.1 == k)

/-- Go map assignment `m[k] = v`: overwrite when the key exists, append
otherwise. -/
def mapInsert (m : List (Int × Session)) (k : Int) (v : Session) :
    List (Int × Session) :=
  if containsKey m k then m.map (fun kv => if kv.1 == k then (k, v) else kv)
  else m ++ [(k, v)]

/-- `delete(games, k)` on the registry key set. -/
def removeKey (l : List Int) (k : Int) : List Int :=
  l.filter (fun x => x != k)

/-- `games[k] = g` on the registry key set. -/
def insertKey (l : List Int) (k : Int) : List Int :=
  if l.contains k then l else k :: l

/-- `strings.TrimSuffix`. -/
def trimSuffix (s suff : String) : String :=
  if s.endsWith suff then s.dropRight suff.length else s

/-- The `otherPlayerNames` accumulation inside the game-history loop of
`End`: names of all players other than `p`, comma-joined with the trailing
separator trimmed. -/
def otherPlayerNames (players : List Player) (p : Player) : String :=
  trimSuffix
    (players.foldl
      (fun acc p2 => if p2.Name ≠ p.Name then acc ++ p2.Name ++ ", " else acc) "")
    ", "

/-- The `models.GameRow` built by `End` (with `int(g.Options.TimeBase)`
collapsing to the identity because `TimeBase` is already integral here). -/
def gameRowOf (g : Game) : GameRow :=
  { Name := g.Name
    Owner := g.Owner
    Variant := g.Options.Variant
    TimeBase := g.Options.TimeBase
    TimePerTurn := g.Options.TimePerTurn
    Seed := g.Seed
    Score := g.Score
    EndCondition := g.EndCondition
    DatetimeCreated := g.DatetimeCreated
    DatetimeStarted := g.DatetimeStarted }

/-- The `models.GameHistory` entry `End` sends to player `p`. -/
def gameHistoryOf (g : Game) (dbid numSimilar : Int) (p : Player) : GameHistory :=
  { ID := dbid
    NumPlayers := (g.Players.length : Int)
    NumSimilar := numSimilar
    Score := g.Score
    DatetimeFinished := g.DatetimeFinished
    Variant := g.Options.Variant
    OtherPlayerNames := otherPlayerNames g.Players p }

/-- `variants[i]` (global name table lookup by Go `int` index). -/
def variantName (vs : List String) (i : Int) : String :=
  vs.getD i.toNat ""

/-- `func announceGameResult(g *Game, databaseID int)` from
`src/gameEnd.go`: the chat command it hands to `commandChat`. -/
def announceGameResult (g : Game) (databaseID : Int) (vs : List String) :
    CommandData :=
  let pogChamp := "<:PogChamp:254683883033853954>"
  let bibleThump := "<:BibleThump:254683882601840641>"
  let playerList := g.Players.map (fun p => p.Name)
  let msg := "[" ++ String.intercalate ", " playerList ++ "] "
    ++ "finished a " ++ (variantName vs g.Options.Variant).toLower ++ " "
    ++ "game with a score of " ++ toString g.Score ++ ". "
  let msg :=
    if g.Score = MaxScore g then msg ++ pogChamp ++ " "
    else if g.Score = 0 then msg ++ bibleThump ++ " "
    else msg
  let msg := msg ++ "(#" ++ toString databaseID ++ " - " ++ g.Name ++ ")"
  { Server := true, Msg := msg, Room := "lobby" }

/-- The pre-persistence half of `End`: finish timestamp, replay-only time
annotations, the `gameOver` append/broadcast, the clock-clearing broadcast,
per-player hand reveals, loss score zeroing, the closing log line and the
table-gone lobby broadcast. Returns the mutated game and the effects so far. -/
def endPhase1 (g0 : Game) (env : Env) : Game × List Effect :=
  let g1 : Game := { g0 with DatetimeFinished := env.now }
  let g2 : Game :=
    if g1.Options.Timed then
      { g1 with Actions :=
          g1.Actions
            ++ [{ «Type» := "turn", Num := g1.Turn, Who := g1.ActivePlayer }]
            ++ g1.Players.map (fun p =>
                { Text := p.Name ++ " finished with a time of "
                    ++ env.durationToString p.Time }) }
    else
      { g1 with Actions :=
          g1.Actions
            ++ [{ Text := "The total game duration was: "
                    ++ env.durationToString
                        (-(g1.Players.foldl (fun acc p => acc + p.Time) 0)) }] }
  let effs2 : List Effect :=
    if g1.Options.Timed then
      g1.Players.map (fun p =>
        Effect.logInfo (GetName g1 ++ p.Name ++ " finished with a time of "
          ++ env.durationToString p.Time))
    else
      [Effect.logInfo (GetName g1 ++ "The total game duration was: "
        ++ env.durationToString
            (-(g1.Players.foldl (fun acc p => acc + p.Time) 0)))]
  let loss : Bool := if g2.EndCondition > 1 then true else false
  let g3 : Game := { g2 with Actions :=
    g2.Actions ++ [{ «Type» := "gameOver", Score := g2.Score, Loss := loss }] }
  let effs3 : List Effect :=
    effs2 ++ [Effect.notifyAction (g3.Actions.getLastD default), Effect.notifyTime]
  let effs4 : List Effect :=
    effs3 ++ g3.Players.flatMap (fun p =>
      p.Hand.map (fun c => Effect.reveal p.Session c.Rank c.Suit c.Order))
  let g4 : Game := if g3.EndCondition > 1 then { g3 with Score := 0 } else g3
  let effs5 : List Effect :=
    effs4 ++ [Effect.logInfo (GetName g4 ++ "Ended with a score of "
                ++ toString g4.Score ++ "."),
              Effect.tableGone]
  (g4, effs5)

/-- The participant-row loop of `End`: insert one row per player, aborting on
the first failure (second component `false`) after logging it. -/
def insertParticipants (db : DB) (dbid : Int) : List Player → List Effect × Bool
  | [] => ([], true)
  | p :: ps =>
    match db.gameParticipantsInsert p.ID dbid p.Notes with
    | .error e =>
        ([Effect.dbInsertParticipant p.ID dbid p.Notes,
          Effect.logError ("Failed to insert the game participant row: " ++ e)],
         false)
    | .ok _ =>
        let r := insertParticipants db dbid ps
        (Effect.dbInsertParticipant p.ID dbid p.Notes :: r.1, r.2)

/-- The action-row loop of `End`: marshal each action to JSON and insert one
row per action, in log order, aborting on the first failure after logging it. -/
def insertGameActions (env : Env) (dbid : Int) : List Action → List Effect × Bool
  | [] => ([], true)
  | a :: rest =>
    match env.marshal a with
    | .error e =>
        ([Effect.logError ("Failed to convert the action to JSON: " ++ e)], false)
    | .ok s =>
      match env.db.gameActionsInsert dbid s with
      | .error e =>
          ([Effect.dbInsertAction dbid s,
            Effect.logError ("Failed to insert the action row: " ++ e)],
           false)
      | .ok _ =>
          let r := insertGameActions env dbid rest
          (Effect.dbInsertAction dbid s :: r.1, r.2)

/-- The player-to-spectator conversion loop of `End`: every present player's
session is stored in the spectator map under its user id; offline players are
skipped. -/
def convertPlayers (specs : List (Int × Session)) : List Player → List (Int × Session)
  | [] => specs
  | p :: ps =>
      if p.Present then convertPlayers (mapInsert specs p.Session.UserID p.Session) ps
      else convertPlayers specs ps

/-- `func (g *Game) End()` from `src/gameEnd.go`, over the registry key set
and the injected collaborators. Every early `return` of the source is a
branch producing the effects accumulated so far. -/
def End (g0 : Game) (games0 : List Int) (env : Env) : EndResult :=
  let g1 := (endPhase1 g0 env).1
  let effs1 := (endPhase1 g0 env).2
  let row := gameRowOf g1
  let effs2 := effs1 ++ [Effect.dbInsertGame row]
  match env.db.gamesInsert row with
  | .error e =>
      ⟨g1, games0,
        effs2 ++ [Effect.logError ("Failed to insert the game row: " ++ e)]⟩
  | .ok databaseID =>
    let pr := insertParticipants env.db databaseID g1.Players
    let effs3 := effs2 ++ pr.1
    if !pr.2 then ⟨g1, games0, effs3⟩
    else
      let ar := insertGameActions env databaseID g1.Actions
      let effs4 := effs3 ++ ar.1
      if !ar.2 then ⟨g1, games0, effs4⟩
      else
        let effs5 := effs4 ++ [Effect.dbGetNumSimilar g1.Seed]
        match env.db.gamesGetNumSimilar g1.Seed with
        | .error e =>
            ⟨g1, games0,
              effs5 ++ [Effect.logError ("Failed to get the number of games on seed "
                ++ g1.Seed ++ ": " ++ e)]⟩
        | .ok numSimilar =>
          let effs6 := effs5 ++ g1.Players.map (fun p =>
            Effect.notifyGameHistory p.Session [gameHistoryOf g1 databaseID numSimilar p])
          let effs7 := effs6
            ++ [Effect.chat (announceGameResult g1 databaseID env.variants),
                Effect.logInfo "Finished database actions for the end of the game."]
          if games0.contains databaseID then
            ⟨g1, games0,
              effs7 ++ [Effect.logError
                ("Failed to turn the game into a shared replay since there already exists a game with an ID of "
                  ++ toString databaseID ++ ".")]⟩
          else
            let games1 := removeKey games0 g1.ID
            let g2 : Game := { g1 with ID := databaseID }
            let games2 := insertKey games1 g2.ID
            let g3 : Game :=
              { g2 with
                SharedReplay := true
                Name := "Shared replay for game #" ++ toString g2.ID }
            let notes := g3.Players.map (fun p => PlayerNote.mk p.ID p.Name p.Notes)
            let effs8 := effs7 ++ g3.Players.map (fun p =>
              Effect.sessionSet p.Session "currentGame" "-1")
            let specs := convertPlayers g3.Spectators g3.Players
            let g4 : Game := { g3 with Spectators := specs, Players := [] }
            if g4.Spectators.length = 0 then
              ⟨g4, removeKey games2 g4.ID, effs8⟩
            else
              let effs9 := effs8 ++ g4.Spectators.flatMap (fun kv =>
                [Effect.sessionSet kv.2 "currentGame" (toString g4.ID),
                 Effect.sessionSet kv.2 "status" "Shared Replay",
                 Effect.notifyUser kv.2,
                 Effect.notifyReplayLeader kv.2,
                 Effect.notifyAllNotes kv.2 notes])
              ⟨g4, games2,
                effs9 ++ [Effect.tablePublished, Effect.playerChange,
                          Effect.spectatorsChange]⟩

/-- A database stub where every call succeeds: the game-row insert returns
`dbid` and seed counting returns `ns`. -/
def okDB (dbid ns : Int) : DB :=
  { gamesInsert := fun _ => .ok dbid
    gameParticipantsInsert := fun _ _ _ => .ok ()
    gameActionsInsert := fun _ _ => .ok ()
    gamesGetNumSimilar := fun _ => .ok ns }

/-- A fully successful environment, for concrete runs and witnesses. -/
def okEnv (dbid ns : Int) : Env :=
  { db := okDB dbid ns
    marshal := fun _ => .ok ""
    variants := ["None"]
    durationToString := fun d => toString d
    now := 100 }

/-- A small concrete running game used by witnesses: one stack of height 0
and one playable (undiscarded) suit-0 rank-1 card in the deck. -/
def baseGame : Game :=
  { ID := 1, Name := "test", Owner := 1
    Options := { Variant := 0, Timed := false, TimeBase := 0,
                 TimePerTurn := 0, ReorderCards := false }
    Players := [], Spectators := [], DisconSpectators := []
    Running := true, SharedReplay := false
    DatetimeCreated := 0, DatetimeStarted := 0, DatetimeFinished := 0
    EndCondition := 0, Seed := "s", Deck := [⟨0, 1, 0, false⟩]
    DeckIndex := 0, Stacks := [0], Turn := 0, ActivePlayer := 0
    Clues := 8, Score := 0, Progress := 0, Strikes := 0, Actions := []
    DiscardSignal := none, Sound := "", TurnBeginTime := 0, EndTurn := 5
    BlindPlays := 0 }

def sampleSession : Session := ⟨1⟩

def samplePlayer : Player :=
  { ID := 1, Name := "Alice", Hand := [], Time := 0, Notes := [],
    Present := true, Session := sampleSession }

/-- `baseGame` at the 3-strike maximum. -/
def gStrikeout : Game := { baseGame with Strikes := 3 }

/-- `baseGame` already terminated. -/
def gEnded : Game := { baseGame with EndCondition := 2 }

/-- `baseGame` with its only next-rank card discarded (stuck deck). -/
def gStuck : Game := { baseGame with Deck := [⟨0, 1, 0, true⟩] }

/-- A game whose `EndCondition` is already the nonzero value 1 while
`Strikes` is 3. -/
def gOverwrite : Game := { baseGame with EndCondition := 1, Strikes := 3 }

/-- The `Prop`-level statement of the stuck-deck rule as the spec words it:
for every suit index `i` with stack height `h`, every card of that suit with
rank `h + 1` anywhere in the full deck is marked discarded. -/
def NoCardPlayable (g : Game) : Prop :=
  ∀ (j : Nat) (hj : j < g.Stacks.length), ∀ c ∈ g.Deck,
    c.Suit = (j : Int) → c.Rank = g.Stacks.get ⟨j, hj⟩ + 1 → c.Discarded = true

/-- The terminal `gameOver` action appended by `End`: the then-current score
together with the loss flag derived from `EndCondition > 1`. -/
def gameOverAction (g : Game) : Action :=
  { «Type» := "gameOver", Score := g.Score,
    Loss := if g.EndCondition > 1 then true else false }

/-- The success-path value of `End` — every collaborator call succeeds (the
game row gets id `dbid`, `ms` is the JSON serialization, seed counting gives
`ns`) and `dbid` does not collide in the registry — spelled out as one
explicit result. `End_ok_eq` proves `End` equal to it. -/
def endOkResult (g0 : Game) (games0 : List Int) (env : Env) (dbid ns : Int)
    (ms : Action → String) : EndResult :=
  let g1 := (endPhase1 g0 env).1
  let effs :=
    (endPhase1 g0 env).2
      ++ [Effect.dbInsertGame (gameRowOf g1)]
      ++ g1.Players.map (fun p => Effect.dbInsertParticipant p.ID dbid p.Notes)
      ++ g1.Actions.map (fun a => Effect.dbInsertAction dbid (ms a))
      ++ [Effect.dbGetNumSimilar g1.Seed]
      ++ g1.Players.map (fun p =>
          Effect.notifyGameHistory p.Session [gameHistoryOf g1 dbid ns p])
      ++ [Effect.chat (announceGameResult g1 dbid env.variants),
          Effect.logInfo "Finished database actions for the end of the game."]
      ++ g1.Players.map (fun p => Effect.sessionSet p.Session "currentGame" "-1")
  let specs := convertPlayers g1.Spectators g1.Players
  let gFin : Game :=
    { g1 with
      ID := dbid
      SharedReplay := true
      Name := "Shared replay for game #" ++ toString dbid
      Spectators := specs
      Players := [] }
  let games2 := insertKey (removeKey games0 g1.ID) dbid
  if specs.length = 0 then ⟨gFin, removeKey games2 dbid, effs⟩
  else
    ⟨gFin, games2,
      effs
        ++ specs.flatMap (fun kv =>
            [Effect.sessionSet kv.2 "currentGame" (toString dbid),
             Effect.sessionSet kv.2 "status" "Shared Replay",
             Effect.notifyUser kv.2,
             Effect.notifyReplayLeader kv.2,
             Effect.notifyAllNotes kv.2
               (g1.Players.map (fun p => PlayerNote.mk p.ID p.Name p.Notes))])
        ++ [Effect.tablePublished, Effect.playerChange, Effect.spectatorsChange]⟩

/-- What C7 requires after a persistence failure inside `End`: registry and
identity untouched, no re-keying into a shared replay, no game-history
notification, no lobby chat announcement, and the failure logged as the final
effect. -/
def AbortedCleanly (g0 : Game) (games0 : List Int) (r : EndResult) : Prop :=
  r.games = games0 ∧ r.game.SharedReplay = g0.SharedReplay ∧
  r.game.ID = g0.ID ∧
  (∀ s h, Effect.notifyGameHistory s h ∉ r.effects) ∧
  (∀ d, Effect.chat d ∉ r.effects) ∧
  (∃ m, r.effects.getLast? = some (Effect.logError m))

/-- An environment whose game-summary insert always fails. -/
def failGameInsertEnv : Env :=
  { okEnv 42 0 with
    db := { okDB 42 0 with gamesInsert := fun _ => .error "boom" } }

/-- An already-finalized game (shared replay, loss, players emptied, one
remaining spectator), as `End` leaves it. -/
def gFinalized : Game :=
  { baseGame with
    EndCondition := 2
    SharedReplay := true
    Players := []
    Score := 0
    Spectators := [(1, sampleSession)] }

/-- A lost game (`EndCondition = 2`) with one player and a nonzero score. -/
def gLoss : Game :=
  { baseGame with EndCondition := 2, Score := 4, Players := [samplePlayer] }

/-- A finished game with no players but one pre-existing spectator. -/
def gPreSpec : Game :=
  { baseGame with
    EndCondition := 1
    Players := []
    Spectators := [(7, ⟨7⟩)] }

/-- A finished game whose only player is offline (not present). -/
def gNoPresent : Game :=
  { baseGame with
    EndCondition := 1
    Players := [{ samplePlayer with Present := false }] }

theorem playableSearch_eq_false_iff (deck : List Card) :
    ∀ (stks : List Int) (b : Int),
      playableSearch deck stks b = false ↔
        ∀ (j : Nat) (hj : j < stks.length), ∀ c ∈ deck,
          c.Suit = b + (j : Int) → c.Rank = stks.get ⟨j, hj⟩ + 1 →
            c.Discarded = true := by
  intro stks
  induction stks with
  | nil =>
      intro b
      simp [playableSearch]
  | cons s rest ih =>
      intro b
      rw [playableSearch, Bool.or_eq_false_iff, ih (b + 1)]
      constructor
      · rintro ⟨hany, hrest⟩ j hj c hc hsuit hrank
        cases j with
        | zero =>
            have hfc : (c.Suit == b && c.Rank == s + 1 && !c.Discarded) = false := by
              simpa using List.any_eq_false.mp hany c hc
            have hb : c.Suit = b := by simpa using hsuit
            have hr : c.Rank = s + 1 := by simpa using hrank
            rw [hb, hr] at hfc
            simpa using hfc
        | succ j =>
            have hj' : j < rest.length := by simpa using hj
            refine hrest j hj' c hc ?_ ?_
            · rw [hsuit]; push_cast; ring
            · simpa using hrank
      · intro h
        refine ⟨?_, ?_⟩
        · rw [List.any_eq_false]
          intro c hc
          by_cases hb : c.Suit = b
          · by_cases hr : c.Rank = s + 1
            · have hd : c.Discarded = true :=
                h 0 (by simp) c hc (by simpa using hb) (by simpa using hr)
              simp [hb, hr, hd]
            · simp [hr]
          · simp [hb]
        · intro j hj c hc hsuit hrank
          refine h (j + 1) (by simpa using hj) c hc ?_ ?_
          · rw [hsuit]; push_cast; ring
          · simpa using hrank

theorem playableSearch_zero_iff (g : Game) :
    playableSearch g.Deck g.Stacks 0 = false ↔ NoCardPlayable g := by
  rw [playableSearch_eq_false_iff]
  unfold NoCardPlayable
  constructor
  · intro h j hj c hc hsuit hrank
    exact h j hj c hc (by rw [hsuit]; ring) hrank
  · intro h j hj c hc hsuit hrank
    refine h j hj c hc ?_ hrank
    rw [hsuit]; ring

/-- C1: `CheckEnd` evaluates the termination rules in strict priority order,
stopping at the first match: Strikes = 3 sets `EndCondition` to 2 (loss) and
returns `true`; otherwise Turn = EndTurn sets it to 1 and returns `true`;
otherwise Score = MaxScore (which is 5 times the number of stacks/suits) sets
it to 1 and returns `true`; otherwise, if no playable card remains, it sets
it to 1 and returns `true`; otherwise it returns `false` with the game — in
particular `EndCondition`, which thus stays 0 on a running game —
unchanged. -/
theorem checkEnd_priority_order (g : Game) :
    MaxScore g = 5 * (g.Stacks.length : Int) ∧
    (g.Strikes = 3 → CheckEnd g = ({ g with EndCondition := 2 }, true)) ∧
    (g.Strikes ≠ 3 → g.Turn = g.EndTurn →
      CheckEnd g = ({ g with EndCondition := 1 }, true)) ∧
    (g.Strikes ≠ 3 → g.Turn ≠ g.EndTurn → g.Score = MaxScore g →
      CheckEnd g = ({ g with EndCondition := 1 }, true)) ∧
    (g.Strikes ≠ 3 → g.Turn ≠ g.EndTurn → g.Score ≠ MaxScore g →
      NoCardPlayable g → CheckEnd g = ({ g with EndCondition := 1 }, true)) ∧
    (g.Strikes ≠ 3 → g.Turn ≠ g.EndTurn → g.Score ≠ MaxScore g →
      ¬ NoCardPlayable g → CheckEnd g = (g, false)) := by
  refine ⟨by unfold MaxScore; ring, ?_, ?_, ?_, ?_, ?_⟩
  · intro h1; simp [CheckEnd, h1]
  · intro h1 h2; simp [CheckEnd, h1, h2]
  · intro h1 h2 h3; simp [CheckEnd, h1, h2, h3]
  · intro h1 h2 h3 h4
    have hps : playableSearch g.Deck g.Stacks 0 = false :=
      (playableSearch_zero_iff g).mpr h4
    simp [CheckEnd, h1, h2, h3, hps]
  · intro h1 h2 h3 h4
    have hps : playableSearch g.Deck g.Stacks 0 = true := by
      cases hp : playableSearch g.Deck g.Stacks 0
      · exact absurd ((playableSearch_zero_iff g).mp hp) h4
      · rfl
    simp [CheckEnd, h1, h2, h3, hps]

/-- Witness for C1 at the concrete strikeout game. -/
theorem checkEnd_priority_order_witness :
    CheckEnd gStrikeout = ({ gStrikeout with EndCondition := 2 }, true) :=
  (checkEnd_priority_order gStrikeout).2.1 rfl

/-- C10: `CheckEnd` writes no field of the game other than `EndCondition`
(each listed field is preserved, and the result differs from the input at most
in `EndCondition`); when it returns `false` the entire game state, including
`EndCondition`, equals the state before the call. -/
theorem checkEnd_frame (g : Game) :
    (CheckEnd g).1.Strikes = g.Strikes ∧ (CheckEnd g).1.Score = g.Score ∧
    (CheckEnd g).1.Turn = g.Turn ∧ (CheckEnd g).1.EndTurn = g.EndTurn ∧
    (CheckEnd g).1.Stacks = g.Stacks ∧ (CheckEnd g).1.Deck = g.Deck ∧
    (CheckEnd g).1.Actions = g.Actions ∧ (CheckEnd g).1.Players = g.Players ∧
    (CheckEnd g).1 = { g with EndCondition := (CheckEnd g).1.EndCondition } ∧
    ((CheckEnd g).2 = false → (CheckEnd g).1 = g) := by
  unfold CheckEnd
  split
  · simp
  · split
    · simp
    · split
      · simp
      · split
        · simp
        · simp

/-- Witness for C10: on the concrete running game `CheckEnd` returns `false`
and leaves the game untouched. -/
theorem checkEnd_frame_witness : (CheckEnd baseGame).1 = baseGame :=
  (checkEnd_frame baseGame).2.2.2.2.2.2.2.2.2 rfl

/-- C3: a stale timer wake — the game has already terminated (its
`EndCondition` is nonzero; per the data model terminal codes are positive) or
the turn number has advanced — returns without mutating the player's time,
the game or the action log, and submits no synthetic action. -/
theorem checkTimer_stale (g : Game) (turn : Int) (p : Player)
    (hdom : 0 ≤ g.EndCondition)
    (hstale : g.EndCondition ≠ 0 ∨ turn ≠ g.Turn) :
    CheckTimer g turn p = ⟨g, p, [], []⟩ := by
  unfold CheckTimer
  by_cases h0 : g.EndCondition > 0
  · simp [h0]
  · have he : g.EndCondition = 0 := le_antisymm (not_lt.mp h0) hdom
    rcases hstale with h | h
    · exact absurd he h
    · simp [h0, h]

/-- Witness for C3 at a concrete terminated game. -/
theorem checkTimer_stale_witness :
    CheckTimer gEnded 0 samplePlayer = ⟨gEnded, samplePlayer, [], []⟩ :=
  checkTimer_stale gEnded 0 samplePlayer (by decide) (Or.inl (by decide))

/-- C8: a non-stale wake (`EndCondition` is 0 and the turn number is
unchanged) sets the player's remaining time to exactly 0, logs the timeout,
and submits the synthetic type-4 "time ran out" action through
`commandAction`. -/
theorem checkTimer_timeout (g : Game) (turn : Int) (p : Player)
    (h0 : g.EndCondition = 0) (ht : turn = g.Turn) :
    CheckTimer g turn p =
      ⟨g, { p with Time := 0 }, [(p.Session, { «Type» := 4 })],
        [GetName g ++ "Time ran out for \"" ++ p.Name ++ "\"."]⟩ ∧
    (CheckTimer g turn p).player.Time = 0 := by
  have hmain : CheckTimer g turn p =
      ⟨g, { p with Time := 0 }, [(p.Session, { «Type» := 4 })],
        [GetName g ++ "Time ran out for \"" ++ p.Name ++ "\"."]⟩ := by
    unfold CheckTimer
    simp [h0, ht]
  exact ⟨hmain, by rw [hmain]⟩

/-- Witness for C8 at the concrete running game. -/
theorem checkTimer_timeout_witness :
    (CheckTimer baseGame 0 samplePlayer).player.Time = 0 :=
  (checkTimer_timeout baseGame 0 samplePlayer rfl rfl).2

/-- C9 counterexample: on a game whose `EndCondition` is already the nonzero
value 1 but whose `Strikes` is 3, `CheckEnd` overwrites `EndCondition` to 2 —
a subsequent call does not leave a nonzero `EndCondition` at its current
value. -/
theorem checkEnd_not_write_once_counterexample :
    gOverwrite.EndCondition = 1 ∧
    (CheckEnd gOverwrite).1.EndCondition = 2 ∧
    (CheckEnd gOverwrite).1.EndCondition ≠ gOverwrite.EndCondition :=
  ⟨rfl, rfl, by decide⟩

/-- C9 amended: `CheckEnd` never resets `EndCondition` to 0 — when it returns
`false` the value is unchanged, and when it returns `true` it writes the
terminal value 1 or 2 — but it does not consult the current value first, so
it can overwrite one nonzero terminal value with another (counterexample:
1 becomes 2 at three strikes); the write-once invariant therefore relies on
callers not invoking `CheckEnd` after termination. -/
theorem checkEnd_endCondition_evolution (g : Game) :
    ((CheckEnd g).2 = false → (CheckEnd g).1.EndCondition = g.EndCondition) ∧
    ((CheckEnd g).2 = true →
      (CheckEnd g).1.EndCondition = 1 ∨ (CheckEnd g).1.EndCondition = 2) := by
  unfold CheckEnd
  split
  · simp
  · split
    · simp
    · split
      · simp
      · split
        · simp
        · simp

/-- Witness for C9 (amended) at the concrete running game: `CheckEnd` returns
`false` and `EndCondition` keeps its value 0. -/
theorem checkEnd_endCondition_evolution_witness :
    (CheckEnd baseGame).1.EndCondition = baseGame.EndCondition :=
  (checkEnd_endCondition_evolution baseGame).1 rfl

/-- C5 counterexample: with 3 strikes and an undiscarded playable card in the
deck, `CheckEnd` returns `true` although not every next-rank card is
discarded, so the claim's unconditional if-and-only-if fails. -/
theorem checkEnd_stuck_iff_counterexample :
    ¬ (((CheckEnd gStrikeout).2 = true) ↔ NoCardPlayable gStrikeout) := by
  intro h
  have hcard := h.mp (by decide) 0 (by decide) ⟨0, 1, 0, false⟩ (by decide)
    (by decide) (by decide)
  exact absurd hcard (by decide)

/-- C5 amended: if every next-rank card of every suit is discarded somewhere
in the full deck then `CheckEnd` returns `true`; the converse — `CheckEnd`
returns `true` only if that condition holds — is valid exactly when none of
the three higher-priority rules (3 strikes, final go-around, maximum score)
fires. -/
theorem checkEnd_stuck_deck (g : Game) :
    (NoCardPlayable g → (CheckEnd g).2 = true) ∧
    (g.Strikes ≠ 3 → g.Turn ≠ g.EndTurn → g.Score ≠ MaxScore g →
      ((CheckEnd g).2 = true ↔ NoCardPlayable g)) := by
  have hkey : playableSearch g.Deck g.Stacks 0 = false → (CheckEnd g).2 = true := by
    intro hps
    unfold CheckEnd
    split
    · simp
    · split
      · simp
      · split
        · simp
        · simp [hps]
  constructor
  · intro hN
    exact hkey ((playableSearch_zero_iff g).mpr hN)
  · intro h1 h2 h3
    constructor
    · intro htrue
      by_contra hN
      have hps : playableSearch g.Deck g.Stacks 0 = true := by
        cases hp : playableSearch g.Deck g.Stacks 0
        · exact absurd ((playableSearch_zero_iff g).mp hp) hN
        · rfl
      have hfalse : (CheckEnd g).2 = false := by
        simp [CheckEnd, h1, h2, h3, hps]
      rw [hfalse] at htrue
      exact Bool.false_ne_true htrue
    · intro hN
      exact hkey ((playableSearch_zero_iff g).mpr hN)

/-- Witness for C5 (amended) at the concrete stuck game: the only next-rank
card is discarded, so `CheckEnd` must return `true`. -/
theorem checkEnd_stuck_deck_witness : (CheckEnd gStuck).2 = true :=
  (checkEnd_stuck_deck gStuck).1 (by
    intro j hj c hc hs hr
    have hc' : c = ⟨0, 1, 0, true⟩ := List.mem_singleton.mp hc
    rw [hc'])

theorem endPhase1_fields (g : Game) (env : Env) :
    (endPhase1 g env).1.ID = g.ID ∧
    (endPhase1 g env).1.Name = g.Name ∧
    (endPhase1 g env).1.Owner = g.Owner ∧
    (endPhase1 g env).1.Options = g.Options ∧
    (endPhase1 g env).1.Players = g.Players ∧
    (endPhase1 g env).1.Spectators = g.Spectators ∧
    (endPhase1 g env).1.EndCondition = g.EndCondition ∧
    (endPhase1 g env).1.Seed = g.Seed ∧
    (endPhase1 g env).1.SharedReplay = g.SharedReplay ∧
    (endPhase1 g env).1.DatetimeCreated = g.DatetimeCreated ∧
    (endPhase1 g env).1.DatetimeStarted = g.DatetimeStarted ∧
    (endPhase1 g env).1.DatetimeFinished = env.now ∧
    (endPhase1 g env).1.Score = (if g.EndCondition > 1 then 0 else g.Score) := by
  unfold endPhase1
  by_cases ht : g.Options.Timed = true <;> by_cases hl : g.EndCondition > 1 <;>
    simp [ht, hl]

theorem getLast?_cons_concat {α : Type} (x : α) (l : List α) (a : α) :
    (x :: (l ++ [a])).getLast? = some a := by
  rw [← List.cons_append, List.getLast?_concat]

theorem endPhase1_gameOver (g : Game) (env : Env) :
    gameOverAction g ∈ (endPhase1 g env).1.Actions ∧
    Effect.notifyAction (gameOverAction g) ∈ (endPhase1 g env).2 := by
  unfold endPhase1 gameOverAction
  by_cases ht : g.Options.Timed = true <;> by_cases hl : g.EndCondition > 1 <;>
    simp [ht, hl, List.getLastD_concat, getLast?_cons_concat]

theorem endPhase1_effects_shape (g : Game) (env : Env) :
    ∀ e ∈ (endPhase1 g env).2,
      (∃ m, e = Effect.logInfo m) ∨ (∃ a, e = Effect.notifyAction a) ∨
      e = Effect.notifyTime ∨ (∃ s r su o, e = Effect.reveal s r su o) ∨
      e = Effect.tableGone := by
  intro e he
  unfold endPhase1 at he
  by_cases ht : g.Options.Timed = true <;>
    · simp only [ht, if_true, if_false, Bool.false_eq_true, ite_true, ite_false,
        List.mem_append, List.mem_map, List.mem_flatMap, List.mem_singleton,
        List.mem_cons, List.not_mem_nil, or_false] at he
      rcases he with ((⟨p, _, rfl⟩ | he) | ⟨p, _, c, _, rfl⟩) | (rfl | rfl)
      · exact Or.inl ⟨_, rfl⟩
      · rcases he with rfl | rfl
        · exact Or.inr (Or.inl ⟨_, rfl⟩)
        · exact Or.inr (Or.inr (Or.inl rfl))
      · exact Or.inr (Or.inr (Or.inr (Or.inl ⟨_, _, _, _, rfl⟩)))
      · exact Or.inl ⟨_, rfl⟩
      · exact Or.inr (Or.inr (Or.inr (Or.inr rfl)))

theorem insertParticipants_ok (db : DB) (dbid : Int)
    (h : ∀ pid id notes, db.gameParticipantsInsert pid id notes = .ok ()) :
    ∀ ps : List Player,
      insertParticipants db dbid ps =
        (ps.map (fun p => Effect.dbInsertParticipant p.ID dbid p.Notes), true) := by
  intro ps
  induction ps with
  | nil => rfl
  | cons p ps ih => simp [insertParticipants, h, ih]

theorem insertGameActions_ok (env : Env) (dbid : Int) (ms : Action → String)
    (hm : ∀ a, env.marshal a = .ok (ms a))
    (h : ∀ id s, env.db.gameActionsInsert id s = .ok ()) :
    ∀ acts : List Action,
      insertGameActions env dbid acts =
        (acts.map (fun a => Effect.dbInsertAction dbid (ms a)), true) := by
  intro acts
  induction acts with
  | nil => rfl
  | cons a acts ih => simp [insertGameActions, hm, h, ih]

theorem insertParticipants_fail_shape (db : DB) (dbid : Int) :
    ∀ ps : List Player, (insertParticipants db dbid ps).2 = false →
      ∃ l m, (insertParticipants db dbid ps).1 = l ++ [Effect.logError m] ∧
        ∀ e ∈ l, ∃ pid id notes, e = Effect.dbInsertParticipant pid id notes := by
  intro ps
  induction ps with
  | nil => intro h; simp [insertParticipants] at h
  | cons p ps ih =>
      intro h
      cases hins : db.gameParticipantsInsert p.ID dbid p.Notes with
      | error e =>
          simp only [insertParticipants, hins] at h ⊢
          refine ⟨[Effect.dbInsertParticipant p.ID dbid p.Notes], _, rfl, ?_⟩
          intro x hx
          rcases List.mem_singleton.mp hx with rfl
          exact ⟨_, _, _, rfl⟩
      | ok u =>
          simp only [insertParticipants, hins] at h ⊢
          obtain ⟨l, m, hl, hall⟩ := ih h
          refine ⟨Effect.dbInsertParticipant p.ID dbid p.Notes :: l, m, ?_, ?_⟩
          · rw [hl, List.cons_append]
          · intro x hx
            rcases List.mem_cons.mp hx with rfl | hx
            · exact ⟨_, _, _, rfl⟩
            · exact hall x hx

theorem insertGameActions_fail_shape (env : Env) (dbid : Int) :
    ∀ acts : List Action, (insertGameActions env dbid acts).2 = false →
      ∃ l m, (insertGameActions env dbid acts).1 = l ++ [Effect.logError m] ∧
        ∀ e ∈ l, ∃ id s, e = Effect.dbInsertAction id s := by
  intro acts
  induction acts with
  | nil => intro h; simp [insertGameActions] at h
  | cons a acts ih =>
      intro h
      cases hmar : env.marshal a with
      | error e =>
          simp only [insertGameActions, hmar] at h ⊢
          exact ⟨[], _, rfl, fun x hx => absurd hx (List.not_mem_nil x)⟩
      | ok s =>
          simp only [insertGameActions, hmar] at h ⊢
          cases hins : env.db.gameActionsInsert dbid s with
          | error e =>
              simp only [hins] at h ⊢
              refine ⟨[Effect.dbInsertAction dbid s], _, rfl, ?_⟩
              intro x hx
              rcases List.mem_singleton.mp hx with rfl
              exact ⟨_, _, rfl⟩
          | ok u =>
              simp only [hins] at h ⊢
              obtain ⟨l, m, hl, hall⟩ := ih h
              refine ⟨Effect.dbInsertAction dbid s :: l, m, ?_, ?_⟩
              · rw [hl, List.cons_append]
              · intro x hx
                rcases List.mem_cons.mp hx with rfl | hx
                · exact ⟨_, _, rfl⟩
                · exact hall x hx

theorem End_ok_eq (g0 : Game) (games0 : List Int) (env : Env) (dbid ns : Int)
    (ms : Action → String)
    (hIns : env.db.gamesInsert (gameRowOf (endPhase1 g0 env).1) = .ok dbid)
    (hPart : ∀ pid id notes, env.db.gameParticipantsInsert pid id notes = .ok ())
    (hMar : ∀ a, env.marshal a = .ok (ms a))
    (hAct : ∀ id s, env.db.gameActionsInsert id s = .ok ())
    (hSim : env.db.gamesGetNumSimilar (endPhase1 g0 env).1.Seed = .ok ns)
    (hColl : games0.contains dbid = false) :
    End g0 games0 env = endOkResult g0 games0 env dbid ns ms := by
  rw [End, hIns, endOkResult]
  simp only [insertParticipants_ok env.db dbid hPart,
    insertGameActions_ok env dbid ms hMar hAct, hSim, hColl]
  simp [List.append_assoc]

theorem insertParticipants_effects_shape (db : DB) (dbid : Int) :
    ∀ ps : List Player, ∀ e ∈ (insertParticipants db dbid ps).1,
      (∃ pid id notes, e = Effect.dbInsertParticipant pid id notes) ∨
      (∃ m, e = Effect.logError m) := by
  intro ps
  induction ps with
  | nil => intro e he; simp [insertParticipants] at he
  | cons p ps ih =>
      intro e he
      cases hins : db.gameParticipantsInsert p.ID dbid p.Notes with
      | error msg =>
          simp only [insertParticipants, hins] at he
          rcases List.mem_cons.mp he with rfl | he'
          · exact Or.inl ⟨_, _, _, rfl⟩
          · rcases List.mem_singleton.mp he' with rfl
            exact Or.inr ⟨_, rfl⟩
      | ok u =>
          simp only [insertParticipants, hins] at he
          rcases List.mem_cons.mp he with rfl | he'
          · exact Or.inl ⟨_, _, _, rfl⟩
          · exact ih e he'

theorem insertGameActions_effects_shape (env : Env) (dbid : Int) :
    ∀ acts : List Action, ∀ e ∈ (insertGameActions env dbid acts).1,
      (∃ id s, e = Effect.dbInsertAction id s) ∨ (∃ m, e = Effect.logError m) := by
  intro acts
  induction acts with
  | nil => intro e he; simp [insertGameActions] at he
  | cons a acts ih =>
      intro e he
      cases hmar : env.marshal a with
      | error msg =>
          simp only [insertGameActions, hmar] at he
          rcases List.mem_singleton.mp he with rfl
          exact Or.inr ⟨_, rfl⟩
      | ok s =>
          simp only [insertGameActions, hmar] at he
          cases hins : env.db.gameActionsInsert dbid s with
          | error msg =>
              simp only [hins] at he
              rcases List.mem_cons.mp he with rfl | he'
              · exact Or.inl ⟨_, _, rfl⟩
              · rcases List.mem_singleton.mp he' with rfl
                exact Or.inr ⟨_, rfl⟩
          | ok u =>
              simp only [hins] at he
              rcases List.mem_cons.mp he with rfl | he'
              · exact Or.inl ⟨_, _, rfl⟩
              · exact ih e he'

theorem endPhase1_no_history (g : Game) (env : Env) (s : Session)
    (h : List GameHistory) :
    Effect.notifyGameHistory s h ∉ (endPhase1 g env).2 := by
  intro hmem
  rcases endPhase1_effects_shape g env _ hmem with
    ⟨m, hm⟩ | ⟨a, hm⟩ | hm | ⟨s', r, su, o, hm⟩ | hm <;> simp at hm

theorem endPhase1_no_chat (g : Game) (env : Env) (d : CommandData) :
    Effect.chat d ∉ (endPhase1 g env).2 := by
  intro hmem
  rcases endPhase1_effects_shape g env _ hmem with
    ⟨m, hm⟩ | ⟨a, hm⟩ | hm | ⟨s', r, su, o, hm⟩ | hm <;> simp at hm

theorem endPhase1_no_dbParticipant (g : Game) (env : Env) (pid id : Int)
    (notes : List String) :
    Effect.dbInsertParticipant pid id notes ∉ (endPhase1 g env).2 := by
  intro hmem
  rcases endPhase1_effects_shape g env _ hmem with
    ⟨m, hm⟩ | ⟨a, hm⟩ | hm | ⟨s', r, su, o, hm⟩ | hm <;> simp at hm

theorem endPhase1_no_dbAction (g : Game) (env : Env) (id : Int) (s : String) :
    Effect.dbInsertAction id s ∉ (endPhase1 g env).2 := by
  intro hmem
  rcases endPhase1_effects_shape g env _ hmem with
    ⟨m, hm⟩ | ⟨a, hm⟩ | hm | ⟨s', r, su, o, hm⟩ | hm <;> simp at hm

theorem endPhase1_no_getNumSimilar (g : Game) (env : Env) (s : String) :
    Effect.dbGetNumSimilar s ∉ (endPhase1 g env).2 := by
  intro hmem
  rcases endPhase1_effects_shape g env _ hmem with
    ⟨m, hm⟩ | ⟨a, hm⟩ | hm | ⟨s', r, su, o, hm⟩ | hm <;> simp at hm

theorem not_mem_removeKey (l : List Int) (k : Int) : k ∉ removeKey l k := by
  intro h
  have := (List.mem_filter.mp h).2
  simp at this

theorem mapInsert_of_containsKey_eq_false (m : List (Int × Session)) (k : Int)
    (v : Session) (h : containsKey m k = false) :
    mapInsert m k v = m ++ [(k, v)] := by
  unfold mapInsert
  rw [h]
  simp

theorem containsKey_append_single (m : List (Int × Session)) (k k2 : Int)
    (v : Session) :
    containsKey (m ++ [(k, v)]) k2 = (containsKey m k2 || (k == k2)) := by
  simp [containsKey, List.any_append]

theorem convertPlayers_length (ps : List Player) :
    ∀ m : List (Int × Session),
      (∀ p ∈ ps, p.Present = true → containsKey m p.Session.UserID = false) →
      ((ps.filter (fun p => p.Present)).map
        (fun p => p.Session.UserID)).Pairwise (· ≠ ·) →
      (convertPlayers m ps).length =
        m.length + (ps.filter (fun p => p.Present)).length := by
  induction ps with
  | nil => intro m _ _; simp [convertPlayers]
  | cons p ps ih =>
      intro m hfresh hdist
      by_cases hp : p.Present = true
      · rw [convertPlayers, if_pos hp]
        have hmk : containsKey m p.Session.UserID = false :=
          hfresh p (List.mem_cons_self p ps) hp
        rw [mapInsert_of_containsKey_eq_false m _ _ hmk]
        have hfilter : (p :: ps).filter (fun p => p.Present) =
            p :: ps.filter (fun p => p.Present) := by
          simp [List.filter_cons, hp]
        rw [hfilter] at hdist ⊢
        rw [List.map_cons, List.pairwise_cons] at hdist
        obtain ⟨hhead, htail⟩ := hdist
        rw [ih (m ++ [(p.Session.UserID, p.Session)]) ?_ htail]
        · simp only [List.length_append, List.length_cons, List.length_nil]
          omega
        · intro q hq hqp
          rw [containsKey_append_single]
          have h1 : containsKey m q.Session.UserID = false :=
            hfresh q (List.mem_cons_of_mem p hq) hqp
          have h2 : p.Session.UserID ≠ q.Session.UserID := by
            apply hhead
            simp only [List.mem_map, List.mem_filter]
            exact ⟨q, ⟨hq, hqp⟩, rfl⟩
          rw [h1]
          simp [h2]
      · rw [convertPlayers, if_neg hp]
        have hfilter : (p :: ps).filter (fun p => p.Present) =
            ps.filter (fun p => p.Present) := by
          simp [List.filter_cons, hp]
        rw [hfilter] at hdist ⊢
        exact ih m (fun q hq hqp => hfresh q (List.mem_cons_of_mem p hq) hqp) hdist

theorem announceMsg_decomp (g : Game) (dbid : Int) (vs : List String) :
    ∃ s1 s2, (announceGameResult g dbid vs).Msg =
      s1 ++ ("game with a score of " ++ toString g.Score ++ ". ") ++ s2 := by
  dsimp only [announceGameResult]
  by_cases h1 : g.Score = MaxScore g
  · rw [if_pos h1]
    refine ⟨"[" ++ String.intercalate ", " (List.map (fun p => p.Name) g.Players)
        ++ "] " ++ "finished a " ++ (variantName vs g.Options.Variant).toLower ++ " ",
      "<:PogChamp:254683883033853954>" ++ " "
        ++ ("(#" ++ toString dbid ++ " - " ++ g.Name ++ ")"), ?_⟩
    simp only [String.append_assoc]
  · rw [if_neg h1]
    by_cases h2 : g.Score = 0
    · rw [if_pos h2]
      refine ⟨"[" ++ String.intercalate ", " (List.map (fun p => p.Name) g.Players)
          ++ "] " ++ "finished a " ++ (variantName vs g.Options.Variant).toLower ++ " ",
        "<:BibleThump:254683882601840641>" ++ " "
          ++ ("(#" ++ toString dbid ++ " - " ++ g.Name ++ ")"), ?_⟩
      simp only [String.append_assoc]
    · rw [if_neg h2]
      refine ⟨"[" ++ String.intercalate ", " (List.map (fun p => p.Name) g.Players)
          ++ "] " ++ "finished a " ++ (variantName vs g.Options.Variant).toLower ++ " ",
        "(#" ++ toString dbid ++ " - " ++ g.Name ++ ")", ?_⟩
      simp only [String.append_assoc]

/-- C4 counterexample: `End` invoked on an already-finalized game
(`SharedReplay` true, `EndCondition` 2, players already emptied) is not
refused: it proceeds and records another game-summary insert, so duplicate
rows and broadcasts do occur on a second call. -/
theorem end_no_refusal_counterexample :
    gFinalized.SharedReplay = true ∧ gFinalized.EndCondition = 2 ∧
    Effect.dbInsertGame (gameRowOf (endPhase1 gFinalized (okEnv 42 0)).1)
      ∈ (End gFinalized [1] (okEnv 42 0)).effects := by
  refine ⟨rfl, rfl, ?_⟩
  decide

/-- C4 amended: `End` performs no precondition check at its start — on every
game, already finalized or not, it unconditionally runs the finalization
sequence, already recording a game-summary insert attempt; exactly-once
finalization is therefore the caller's obligation, not enforced inside
`End`. -/
theorem end_no_precondition_check (g : Game) (games0 : List Int) (env : Env) :
    Effect.dbInsertGame (gameRowOf (endPhase1 g env).1) ∈ (End g games0 env).effects := by
  rw [End]
  cases h : env.db.gamesInsert (gameRowOf (endPhase1 g env).1) with
  | error e => simp
  | ok dbid =>
      simp only []
      split
      · simp
      · split
        · simp
        · split
          · simp
          · split
            · simp
            · split
              · simp
              · simp

/-- C7: each of the four persistence calls of `End` (game-summary insert,
participant-row inserts, action-row inserts, prior-game count by seed), on
returning a failure, makes `End` log the error and return immediately: no
later persistence call is recorded, no game-history notification and no lobby
chat announcement is sent, the registry is untouched and the game keeps its
identity and `SharedReplay` flag (so it stays `false`). -/
theorem end_persistence_failure_aborts (g0 : Game) (games0 : List Int) (env : Env) :
    (∀ e, env.db.gamesInsert (gameRowOf (endPhase1 g0 env).1) = .error e →
      AbortedCleanly g0 games0 (End g0 games0 env) ∧
      (∀ pid id notes,
        Effect.dbInsertParticipant pid id notes ∉ (End g0 games0 env).effects) ∧
      (∀ id s, Effect.dbInsertAction id s ∉ (End g0 games0 env).effects) ∧
      (∀ s, Effect.dbGetNumSimilar s ∉ (End g0 games0 env).effects)) ∧
    (∀ dbid, env.db.gamesInsert (gameRowOf (endPhase1 g0 env).1) = .ok dbid →
      (insertParticipants env.db dbid (endPhase1 g0 env).1.Players).2 = false →
      AbortedCleanly g0 games0 (End g0 games0 env) ∧
      (∀ id s, Effect.dbInsertAction id s ∉ (End g0 games0 env).effects) ∧
      (∀ s, Effect.dbGetNumSimilar s ∉ (End g0 games0 env).effects)) ∧
    (∀ dbid, env.db.gamesInsert (gameRowOf (endPhase1 g0 env).1) = .ok dbid →
      (insertParticipants env.db dbid (endPhase1 g0 env).1.Players).2 = true →
      (insertGameActions env dbid (endPhase1 g0 env).1.Actions).2 = false →
      AbortedCleanly g0 games0 (End g0 games0 env) ∧
      (∀ s, Effect.dbGetNumSimilar s ∉ (End g0 games0 env).effects)) ∧
    (∀ dbid e, env.db.gamesInsert (gameRowOf (endPhase1 g0 env).1) = .ok dbid →
      (insertParticipants env.db dbid (endPhase1 g0 env).1.Players).2 = true →
      (insertGameActions env dbid (endPhase1 g0 env).1.Actions).2 = true →
      env.db.gamesGetNumSimilar (endPhase1 g0 env).1.Seed = .error e →
      AbortedCleanly g0 games0 (End g0 games0 env)) := by
  have hfields := endPhase1_fields g0 env
  have hSR : (endPhase1 g0 env).1.SharedReplay = g0.SharedReplay :=
    hfields.2.2.2.2.2.2.2.2.1
  have hID : (endPhase1 g0 env).1.ID = g0.ID := hfields.1
  refine ⟨?_, ?_, ?_, ?_⟩
  · -- failure of the game-summary insert
    intro e hE
    have hEnd : End g0 games0 env =
        ⟨(endPhase1 g0 env).1, games0,
          (endPhase1 g0 env).2
            ++ [Effect.dbInsertGame (gameRowOf (endPhase1 g0 env).1)]
            ++ [Effect.logError ("Failed to insert the game row: " ++ e)]⟩ := by
      rw [End, hE]
    refine ⟨⟨?_, ?_, ?_, ?_, ?_, ?_⟩, ?_, ?_, ?_⟩
    · rw [hEnd]
    · rw [hEnd]; exact hSR
    · rw [hEnd]; exact hID
    · intro s h hmem
      rw [hEnd] at hmem
      rcases List.mem_append.mp hmem with h1 | h1
      · rcases List.mem_append.mp h1 with h2 | h2
        · exact endPhase1_no_history g0 env s h h2
        · simp at h2
      · simp at h1
    · intro d hmem
      rw [hEnd] at hmem
      rcases List.mem_append.mp hmem with h1 | h1
      · rcases List.mem_append.mp h1 with h2 | h2
        · exact endPhase1_no_chat g0 env d h2
        · simp at h2
      · simp at h1
    · refine ⟨"Failed to insert the game row: " ++ e, ?_⟩
      rw [hEnd]
      exact List.getLast?_concat _
    · intro pid id notes hmem
      rw [hEnd] at hmem
      rcases List.mem_append.mp hmem with h1 | h1
      · rcases List.mem_append.mp h1 with h2 | h2
        · exact endPhase1_no_dbParticipant g0 env pid id notes h2
        · simp at h2
      · simp at h1
    · intro id s hmem
      rw [hEnd] at hmem
      rcases List.mem_append.mp hmem with h1 | h1
      · rcases List.mem_append.mp h1 with h2 | h2
        · exact endPhase1_no_dbAction g0 env id s h2
        · simp at h2
      · simp at h1
    · intro s hmem
      rw [hEnd] at hmem
      rcases List.mem_append.mp hmem with h1 | h1
      · rcases List.mem_append.mp h1 with h2 | h2
        · exact endPhase1_no_getNumSimilar g0 env s h2
        · simp at h2
      · simp at h1
  · -- failure inside the participant-row loop
    intro dbid hOk hpf
    obtain ⟨l, m, hl, hall⟩ := insertParticipants_fail_shape env.db dbid _ hpf
    have hEnd : End g0 games0 env =
        ⟨(endPhase1 g0 env).1, games0,
          (endPhase1 g0 env).2
            ++ [Effect.dbInsertGame (gameRowOf (endPhase1 g0 env).1)]
            ++ (insertParticipants env.db dbid (endPhase1 g0 env).1.Players).1⟩ := by
      rw [End, hOk]
      simp [hpf, List.append_assoc]
    refine ⟨⟨?_, ?_, ?_, ?_, ?_, ?_⟩, ?_, ?_⟩
    · rw [hEnd]
    · rw [hEnd]; exact hSR
    · rw [hEnd]; exact hID
    · intro s h hmem
      rw [hEnd] at hmem
      rcases List.mem_append.mp hmem with h1 | h1
      · rcases List.mem_append.mp h1 with h2 | h2
        · exact endPhase1_no_history g0 env s h h2
        · simp at h2
      · rcases insertParticipants_effects_shape env.db dbid _ _ h1 with
          ⟨a, b, c, hx⟩ | ⟨mm, hx⟩ <;> simp at hx
    · intro d hmem
      rw [hEnd] at hmem
      rcases List.mem_append.mp hmem with h1 | h1
      · rcases List.mem_append.mp h1 with h2 | h2
        · exact endPhase1_no_chat g0 env d h2
        · simp at h2
      · rcases insertParticipants_effects_shape env.db dbid _ _ h1 with
          ⟨a, b, c, hx⟩ | ⟨mm, hx⟩ <;> simp at hx
    · refine ⟨m, ?_⟩
      rw [hEnd]
      rw [hl, ← List.append_assoc, List.getLast?_concat]
    · intro id s hmem
      rw [hEnd] at hmem
      rcases List.mem_append.mp hmem with h1 | h1
      · rcases List.mem_append.mp h1 with h2 | h2
        · exact endPhase1_no_dbAction g0 env id s h2
        · simp at h2
      · rcases insertParticipants_effects_shape env.db dbid _ _ h1 with
          ⟨a, b, c, hx⟩ | ⟨mm, hx⟩ <;> simp at hx
    · intro s hmem
      rw [hEnd] at hmem
      rcases List.mem_append.mp hmem with h1 | h1
      · rcases List.mem_append.mp h1 with h2 | h2
        · exact endPhase1_no_getNumSimilar g0 env s h2
        · simp at h2
      · rcases insertParticipants_effects_shape env.db dbid _ _ h1 with
          ⟨a, b, c, hx⟩ | ⟨mm, hx⟩ <;> simp at hx
  · -- failure inside the action-row loop
    intro dbid hOk hpt haf
    obtain ⟨l, m, hl, hall⟩ := insertGameActions_fail_shape env dbid _ haf
    have hEnd : End g0 games0 env =
        ⟨(endPhase1 g0 env).1, games0,
          (endPhase1 g0 env).2
            ++ [Effect.dbInsertGame (gameRowOf (endPhase1 g0 env).1)]
            ++ (insertParticipants env.db dbid (endPhase1 g0 env).1.Players).1
            ++ (insertGameActions env dbid (endPhase1 g0 env).1.Actions).1⟩ := by
      rw [End, hOk]
      simp [hpt, haf, List.append_assoc]
    refine ⟨⟨?_, ?_, ?_, ?_, ?_, ?_⟩, ?_⟩
    · rw [hEnd]
    · rw [hEnd]; exact hSR
    · rw [hEnd]; exact hID
    · intro s h hmem
      rw [hEnd] at hmem
      rcases List.mem_append.mp hmem with h1 | h1
      · rcases List.mem_append.mp h1 with h2 | h2
        · rcases List.mem_append.mp h2 with h3 | h3
          · exact endPhase1_no_history g0 env s h h3
          · simp at h3
        · rcases insertParticipants_effects_shape env.db dbid _ _ h2 with
            ⟨a, b, c, hx⟩ | ⟨mm, hx⟩ <;> simp at hx
      · rcases insertGameActions_effects_shape env dbid _ _ h1 with
          ⟨a, b, hx⟩ | ⟨mm, hx⟩ <;> simp at hx
    · intro d hmem
      rw [hEnd] at hmem
      rcases List.mem_append.mp hmem with h1 | h1
      · rcases List.mem_append.mp h1 with h2 | h2
        · rcases List.mem_append.mp h2 with h3 | h3
          · exact endPhase1_no_chat g0 env d h3
          · simp at h3
        · rcases insertParticipants_effects_shape env.db dbid _ _ h2 with
            ⟨a, b, c, hx⟩ | ⟨mm, hx⟩ <;> simp at hx
      · rcases insertGameActions_effects_shape env dbid _ _ h1 with
          ⟨a, b, hx⟩ | ⟨mm, hx⟩ <;> simp at hx
    · refine ⟨m, ?_⟩
      rw [hEnd]
      rw [hl, ← List.append_assoc, List.getLast?_concat]
    · intro s hmem
      rw [hEnd] at hmem
      rcases List.mem_append.mp hmem with h1 | h1
      · rcases List.mem_append.mp h1 with h2 | h2
        · rcases List.mem_append.mp h2 with h3 | h3
          · exact endPhase1_no_getNumSimilar g0 env s h3
          · simp at h3
        · rcases insertParticipants_effects_shape env.db dbid _ _ h2 with
            ⟨a, b, c, hx⟩ | ⟨mm, hx⟩ <;> simp at hx
      · rcases insertGameActions_effects_shape env dbid _ _ h1 with
          ⟨a, b, hx⟩ | ⟨mm, hx⟩ <;> simp at hx
  · -- failure of the seed count
    intro dbid e hOk hpt hat hSimE
    have hEnd : End g0 games0 env =
        ⟨(endPhase1 g0 env).1, games0,
          (endPhase1 g0 env).2
            ++ [Effect.dbInsertGame (gameRowOf (endPhase1 g0 env).1)]
            ++ (insertParticipants env.db dbid (endPhase1 g0 env).1.Players).1
            ++ (insertGameActions env dbid (endPhase1 g0 env).1.Actions).1
            ++ [Effect.dbGetNumSimilar (endPhase1 g0 env).1.Seed]
            ++ [Effect.logError ("Failed to get the number of games on seed "
                  ++ (endPhase1 g0 env).1.Seed ++ ": " ++ e)]⟩ := by
      rw [End, hOk]
      simp [hpt, hat, hSimE, List.append_assoc]
    refine ⟨?_, ?_, ?_, ?_, ?_, ?_⟩
    · rw [hEnd]
    · rw [hEnd]; exact hSR
    · rw [hEnd]; exact hID
    · intro s h hmem
      rw [hEnd] at hmem
      rcases List.mem_append.mp hmem with h1 | h1
      · rcases List.mem_append.mp h1 with h2 | h2
        · rcases List.mem_append.mp h2 with h3 | h3
          · rcases List.mem_append.mp h3 with h4 | h4
            · rcases List.mem_append.mp h4 with h5 | h5
              · exact endPhase1_no_history g0 env s h h5
              · simp at h5
            · rcases insertParticipants_effects_shape env.db dbid _ _ h4 with
                ⟨a, b, c, hx⟩ | ⟨mm, hx⟩ <;> simp at hx
          · rcases insertGameActions_effects_shape env dbid _ _ h3 with
              ⟨a, b, hx⟩ | ⟨mm, hx⟩ <;> simp at hx
        · simp at h2
      · simp at h1
    · intro d hmem
      rw [hEnd] at hmem
      rcases List.mem_append.mp hmem with h1 | h1
      · rcases List.mem_append.mp h1 with h2 | h2
        · rcases List.mem_append.mp h2 with h3 | h3
          · rcases List.mem_append.mp h3 with h4 | h4
            · rcases List.mem_append.mp h4 with h5 | h5
              · exact endPhase1_no_chat g0 env d h5
              · simp at h5
            · rcases insertParticipants_effects_shape env.db dbid _ _ h4 with
                ⟨a, b, c, hx⟩ | ⟨mm, hx⟩ <;> simp at hx
          · rcases insertGameActions_effects_shape env dbid _ _ h3 with
              ⟨a, b, hx⟩ | ⟨mm, hx⟩ <;> simp at hx
        · simp at h2
      · simp at h1
    · refine ⟨"Failed to get the number of games on seed "
        ++ (endPhase1 g0 env).1.Seed ++ ": " ++ e, ?_⟩
      rw [hEnd]
      exact List.getLast?_concat _

/-- Witness for C7 at a concrete environment whose game-summary insert always
fails: the registry is untouched. -/
theorem end_persistence_failure_aborts_witness :
    (End baseGame [1] failGameInsertEnv).games = [1] :=
  (((end_persistence_failure_aborts baseGame [1] failGameInsertEnv).1
    "boom" rfl).1).1

/-- C2: for every finalized loss (`EndCondition > 1`), the `gameOver` action
appended and broadcast by `End` carries the true pre-zeroing `Score` with
`Loss = true` (and, over the terminal codes, `Loss` is false exactly when
`EndCondition` is 1), while the persisted game-summary row, every
`gameHistory` notification, and the lobby announcement are all built from the
score already overwritten to 0 — the zeroing happens after the broadcast and
before persistence. -/
theorem end_loss_score_artifacts (g0 : Game) (games0 : List Int) (env : Env)
    (dbid ns : Int) (ms : Action → String)
    (hIns : env.db.gamesInsert (gameRowOf (endPhase1 g0 env).1) = .ok dbid)
    (hPart : ∀ pid id notes, env.db.gameParticipantsInsert pid id notes = .ok ())
    (hMar : ∀ a, env.marshal a = .ok (ms a))
    (hAct : ∀ id s, env.db.gameActionsInsert id s = .ok ())
    (hSim : env.db.gamesGetNumSimilar (endPhase1 g0 env).1.Seed = .ok ns)
    (hColl : games0.contains dbid = false) :
    (g0.EndCondition ≥ 1 →
      ((gameOverAction g0).Loss = false ↔ g0.EndCondition = 1)) ∧
    (g0.EndCondition > 1 →
      gameOverAction g0 =
        { «Type» := "gameOver", Score := g0.Score, Loss := true } ∧
      gameOverAction g0 ∈ (End g0 games0 env).game.Actions ∧
      Effect.notifyAction (gameOverAction g0) ∈ (End g0 games0 env).effects ∧
      (endPhase1 g0 env).1.Score = 0 ∧
      Effect.dbInsertGame (gameRowOf (endPhase1 g0 env).1)
        ∈ (End g0 games0 env).effects ∧
      (gameRowOf (endPhase1 g0 env).1).Score = 0 ∧
      (∀ p ∈ g0.Players,
        Effect.notifyGameHistory p.Session
            [gameHistoryOf (endPhase1 g0 env).1 dbid ns p]
          ∈ (End g0 games0 env).effects ∧
        (gameHistoryOf (endPhase1 g0 env).1 dbid ns p).Score = 0) ∧
      Effect.chat (announceGameResult (endPhase1 g0 env).1 dbid env.variants)
        ∈ (End g0 games0 env).effects ∧
      (∃ s1 s2,
        (announceGameResult (endPhase1 g0 env).1 dbid env.variants).Msg =
          s1 ++ ("game with a score of "
            ++ toString (endPhase1 g0 env).1.Score ++ ". ") ++ s2)) := by
  have hfields := endPhase1_fields g0 env
  have hPl : (endPhase1 g0 env).1.Players = g0.Players := hfields.2.2.2.2.1
  have hScore : (endPhase1 g0 env).1.Score =
      (if g0.EndCondition > 1 then 0 else g0.Score) :=
    hfields.2.2.2.2.2.2.2.2.2.2.2.2
  have hEq := End_ok_eq g0 games0 env dbid ns ms hIns hPart hMar hAct hSim hColl
  have hActions :
      (End g0 games0 env).game.Actions = (endPhase1 g0 env).1.Actions := by
    rw [hEq]
    simp only [endOkResult]
    split <;> rfl
  have hEffs : ∃ tail, (End g0 games0 env).effects =
      (endPhase1 g0 env).2
        ++ [Effect.dbInsertGame (gameRowOf (endPhase1 g0 env).1)]
        ++ ((endPhase1 g0 env).1.Players.map
            (fun p => Effect.dbInsertParticipant p.ID dbid p.Notes))
        ++ ((endPhase1 g0 env).1.Actions.map
            (fun a => Effect.dbInsertAction dbid (ms a)))
        ++ [Effect.dbGetNumSimilar (endPhase1 g0 env).1.Seed]
        ++ ((endPhase1 g0 env).1.Players.map
            (fun p => Effect.notifyGameHistory p.Session
              [gameHistoryOf (endPhase1 g0 env).1 dbid ns p]))
        ++ [Effect.chat (announceGameResult (endPhase1 g0 env).1 dbid env.variants),
            Effect.logInfo "Finished database actions for the end of the game."]
        ++ ((endPhase1 g0 env).1.Players.map
            (fun p => Effect.sessionSet p.Session "currentGame" "-1"))
        ++ tail := by
    rw [hEq]
    simp only [endOkResult]
    split
    · exact ⟨[], by simp⟩
    · exact ⟨_, by rw [List.append_assoc]⟩
  constructor
  · intro h1
    unfold gameOverAction
    by_cases h : g0.EndCondition > 1 <;> simp [h] <;> omega
  · intro hEC
    have hSc0 : (endPhase1 g0 env).1.Score = 0 := by rw [hScore, if_pos hEC]
    have hgo := endPhase1_gameOver g0 env
    obtain ⟨tail, htail⟩ := hEffs
    refine ⟨?_, ?_, ?_, hSc0, ?_, ?_, ?_, ?_, ?_⟩
    · simp [gameOverAction, hEC]
    · rw [hActions]
      exact hgo.1
    · rw [htail]
      exact List.mem_append_left _ (List.mem_append_left _ (List.mem_append_left _
        (List.mem_append_left _ (List.mem_append_left _ (List.mem_append_left _
        (List.mem_append_left _ (List.mem_append_left _ hgo.2)))))))
    · rw [htail]
      exact List.mem_append_left _ (List.mem_append_left _ (List.mem_append_left _
        (List.mem_append_left _ (List.mem_append_left _ (List.mem_append_left _
        (List.mem_append_left _ (List.mem_append_right _
          (List.mem_singleton_self _))))))))
    · rw [gameRowOf]
      exact hSc0
    · intro p hp
      constructor
      · rw [htail]
        refine List.mem_append_left _ (List.mem_append_left _
          (List.mem_append_left _ (List.mem_append_right _ ?_)))
        refine List.mem_map_of_mem _ ?_
        rw [hPl]
        exact hp
      · rw [gameHistoryOf]
        exact hSc0
    · rw [htail]
      refine List.mem_append_left _ (List.mem_append_left _
        (List.mem_append_right _ ?_))
      exact List.mem_cons_self _ _
    · exact announceMsg_decomp (endPhase1 g0 env).1 dbid env.variants

/-- Witness for C2 at the concrete lost game `gLoss` (score 4, loss): the
`gameOver` broadcast carries the unzeroed score with the loss flag. -/
theorem end_loss_score_artifacts_witness :
    Effect.notifyAction (gameOverAction gLoss) ∈
      (End gLoss [1] (okEnv 42 7)).effects :=
  (((end_loss_score_artifacts gLoss [1] (okEnv 42 7) 42 7 (fun _ => "")
    rfl (fun _ _ _ => rfl) (fun _ => rfl) (fun _ _ => rfl) rfl
    (by decide)).2 (by decide)).2.2).1

/-- C6 counterexample: a game with one pre-existing spectator and no players
keeps that spectator in the map, so after `End` the spectator count is 1
while the count of previously-present players is 0 — and, the count of
previously-present players being 0, the claim would demand the new
shared-replay id 42 not resolve, yet it stays in the registry. -/
theorem end_spectators_counterexample :
    (End gPreSpec [1] (okEnv 42 0)).game.Spectators.length = 1 ∧
    (gPreSpec.Players.filter (fun p => p.Present)).length = 0 ∧
    ¬ ((End gPreSpec [1] (okEnv 42 0)).game.Spectators.length =
        (gPreSpec.Players.filter (fun p => p.Present)).length) ∧
    (42 : Int) ∈ (End gPreSpec [1] (okEnv 42 0)).games := by
  decide

/-- C6 amended: provided the spectator map is empty when `End` runs and the
present players carry pairwise-distinct user ids, the spectator count after
conversion equals the number of previously-present players, the player list
is emptied, and when that count is 0 the new shared-replay identifier no
longer resolves in the registry. (Pre-existing spectators stay in the map —
see the counterexample — so the claim's unconditional count equality fails.) -/
theorem end_spectator_conversion (g0 : Game) (games0 : List Int) (env : Env)
    (dbid ns : Int) (ms : Action → String)
    (hIns : env.db.gamesInsert (gameRowOf (endPhase1 g0 env).1) = .ok dbid)
    (hPart : ∀ pid id notes, env.db.gameParticipantsInsert pid id notes = .ok ())
    (hMar : ∀ a, env.marshal a = .ok (ms a))
    (hAct : ∀ id s, env.db.gameActionsInsert id s = .ok ())
    (hSim : env.db.gamesGetNumSimilar (endPhase1 g0 env).1.Seed = .ok ns)
    (hColl : games0.contains dbid = false)
    (hEmpty : g0.Spectators = [])
    (hDist : ((g0.Players.filter (fun p => p.Present)).map
        (fun p => p.Session.UserID)).Pairwise (· ≠ ·)) :
    (End g0 games0 env).game.Players = [] ∧
    (End g0 games0 env).game.Spectators.length =
      (g0.Players.filter (fun p => p.Present)).length ∧
    ((g0.Players.filter (fun p => p.Present)).length = 0 →
      dbid ∉ (End g0 games0 env).games) := by
  have hfields := endPhase1_fields g0 env
  have hPl : (endPhase1 g0 env).1.Players = g0.Players := hfields.2.2.2.2.1
  have hSp : (endPhase1 g0 env).1.Spectators = g0.Spectators :=
    hfields.2.2.2.2.2.1
  have hlen : (convertPlayers g0.Spectators g0.Players).length =
      g0.Spectators.length + (g0.Players.filter (fun p => p.Present)).length :=
    convertPlayers_length g0.Players g0.Spectators
      (fun q _ _ => by rw [hEmpty]; rfl) hDist
  rw [End_ok_eq g0 games0 env dbid ns ms hIns hPart hMar hAct hSim hColl]
  simp only [endOkResult, hPl, hSp]
  rw [hEmpty] at hlen ⊢
  simp only [List.length_nil, Nat.zero_add] at hlen
  by_cases hz : (convertPlayers [] g0.Players).length = 0
  · rw [if_pos hz]
    refine ⟨rfl, hlen, ?_⟩
    intro _
    exact not_mem_removeKey _ _
  · rw [if_neg hz]
    refine ⟨rfl, hlen, ?_⟩
    intro h0
    omega

/-- Witness for C6 (amended) at the concrete game whose only player is
offline: the player list is emptied and, no present player surviving as a
spectator, the new shared-replay id 42 does not resolve afterward. -/
theorem end_spectator_conversion_witness :
    (End gNoPresent [1] (okEnv 42 0)).game.Players = [] ∧
    (42 : Int) ∉ (End gNoPresent [1] (okEnv 42 0)).games := by
  have h := end_spectator_conversion gNoPresent [1] (okEnv 42 0) 42 0
    (fun _ => "") rfl (fun _ _ _ => rfl) (fun _ => rfl) (fun _ _ => rfl) rfl
    (by decide) rfl (by simp [gNoPresent, samplePlayer, baseGame])
  exact ⟨h.1, h.2.2 (by decide)⟩

end HanabiLive
